import Mathlib

/-!
Shallow embedding of the Carcassonne core engine (board, tiles, connected
regions, validator, scorer) for checking the natural-language specification
against the source.  Rust sources embedded: `src/tile.rs`, `src/board.rs`,
`src/connected_regions.rs`, `src/score.rs`, `src/move_hints.rs`,
`src/tile_definitions.rs`.

Modelling conventions:
* Rust `i8` board coordinates are modelled as `Int` (no placement in the
  claims approaches the `i8` range, and none of the claims concern overflow).
* `HashMap`/`IndexMap` are modelled as association lists with unique keys;
  `HashSet` as duplicate-free lists.  Where the Rust iteration order of a
  `HashMap`/`HashSet` is unspecified, the model fixes one order.
* `Uuid` region ids are modelled by the (unique) pair of the minting tile's
  board coordinate and the region index within that tile, which satisfies
  the uniqueness discipline the ids are used for.
* Rust panics (`expect`, `assert!`, `unreachable!`) on paths the engine's
  invariants rule out are modelled by a harmless default, each marked with a
  comment at the corresponding branch.
-/

set_option maxRecDepth 100000

namespace Carcassonne

/-! ## Geometry: the 12-direction compass (`src/tile.rs`) -/

/-- The 12-element perimeter compass, `CardinalDirection` in `src/tile.rs`
(declaration order preserved). -/
inductive CardinalDirection where
  | North
  | NorthNorthEast
  | EastNorthEast
  | East
  | EastSouthEast
  | SouthSouthEast
  | South
  | SouthSouthWest
  | WestSouthWest
  | West
  | WestNorthWest
  | NorthNorthWest
deriving DecidableEq, Repr, Fintype

open CardinalDirection

/-- `PRIMARY_CARDINAL_DIRECTIONS` in `src/tile.rs`. -/
def PRIMARY_CARDINAL_DIRECTIONS : List CardinalDirection :=
  [North, East, South, West]

/-- `PERIMETER_REGION_DIRECTIONS` in `src/tile.rs`: clockwise starting NNW. -/
def PERIMETER_REGION_DIRECTIONS : List CardinalDirection :=
  [NorthNorthWest, North, NorthNorthEast, EastNorthEast, East, EastSouthEast,
   SouthSouthEast, South, SouthSouthWest, WestSouthWest, West, WestNorthWest]

/-- Position of a direction in `PERIMETER_REGION_DIRECTIONS`
(the `position` lookup inside `CardinalDirection::rotate`). -/
def CardinalDirection.perimeterIndex : CardinalDirection → Nat
  | NorthNorthWest => 0
  | North => 1
  | NorthNorthEast => 2
  | EastNorthEast => 3
  | East => 4
  | EastSouthEast => 5
  | SouthSouthEast => 6
  | South => 7
  | SouthSouthWest => 8
  | WestSouthWest => 9
  | West => 10
  | WestNorthWest => 11

/-- Inverse of `perimeterIndex`, taken modulo 12 (the `cycle` in
`CardinalDirection::rotate`). -/
def CardinalDirection.ofPerimeterIndex (n : Nat) : CardinalDirection :=
  match n % 12 with
  | 0 => NorthNorthWest
  | 1 => North
  | 2 => NorthNorthEast
  | 3 => EastNorthEast
  | 4 => East
  | 5 => EastSouthEast
  | 6 => SouthSouthEast
  | 7 => South
  | 8 => SouthSouthWest
  | 9 => WestSouthWest
  | 10 => West
  | _ => WestNorthWest

/-- `CardinalDirection::rotate` in `src/tile.rs`: walk the clockwise
perimeter cycle `n * 3` positions onward from the direction's position. -/
def CardinalDirection.rotate (d : CardinalDirection) (n : Nat) : CardinalDirection :=
  CardinalDirection.ofPerimeterIndex (n * 3 + d.perimeterIndex)

/-- `CardinalDirection::adjacent` in `src/tile.rs`: the two neighbouring
perimeter sub-edges. -/
def CardinalDirection.adjacent : CardinalDirection → CardinalDirection × CardinalDirection
  | North => (NorthNorthWest, NorthNorthEast)
  | NorthNorthEast => (North, EastNorthEast)
  | EastNorthEast => (NorthNorthEast, East)
  | East => (EastNorthEast, EastSouthEast)
  | EastSouthEast => (East, SouthSouthEast)
  | SouthSouthEast => (EastSouthEast, South)
  | South => (SouthSouthEast, SouthSouthWest)
  | SouthSouthWest => (South, WestSouthWest)
  | WestSouthWest => (SouthSouthWest, West)
  | West => (WestSouthWest, WestNorthWest)
  | WestNorthWest => (West, NorthNorthWest)
  | NorthNorthWest => (WestNorthWest, North)

/-- `CardinalDirection::compass_opposite` in `src/tile.rs`. -/
def CardinalDirection.compass_opposite : CardinalDirection → CardinalDirection
  | North => South
  | NorthNorthEast => SouthSouthWest
  | EastNorthEast => WestSouthWest
  | East => West
  | EastSouthEast => WestNorthWest
  | SouthSouthEast => NorthNorthWest
  | South => North
  | SouthSouthWest => NorthNorthEast
  | WestSouthWest => EastNorthEast
  | West => East
  | WestNorthWest => EastSouthEast
  | NorthNorthWest => SouthSouthEast

/-- `CardinalDirection::tile_opposite` in `src/tile.rs`. -/
def CardinalDirection.tile_opposite : CardinalDirection → CardinalDirection
  | North => South
  | NorthNorthEast => SouthSouthEast
  | EastNorthEast => WestNorthWest
  | East => West
  | EastSouthEast => WestSouthWest
  | SouthSouthEast => NorthNorthEast
  | South => North
  | SouthSouthWest => NorthNorthWest
  | WestSouthWest => EastSouthEast
  | West => East
  | WestNorthWest => EastNorthEast
  | NorthNorthWest => SouthSouthWest

/-- `CardinalDirection::primary_direction` in `src/tile.rs`. -/
def CardinalDirection.primary_direction : CardinalDirection → CardinalDirection
  | North => North
  | NorthNorthEast => North
  | EastNorthEast => East
  | East => East
  | EastSouthEast => East
  | SouthSouthEast => South
  | South => South
  | SouthSouthWest => South
  | WestSouthWest => West
  | West => West
  | WestNorthWest => West
  | NorthNorthWest => North

/-! ## Board coordinates (`src/tile.rs`) -/

/-- `BoardCoordinate` in `src/tile.rs` (Rust `i8` fields modelled as `Int`). -/
structure BoardCoordinate where
  x : Int
  y : Int
deriving DecidableEq, Repr

/-- `BoardCoordinate::direction_to_adjacent_coordinate` in `src/tile.rs`.
The Rust panics on non-adjacent coordinates; modelled as `none`. -/
def BoardCoordinate.direction_to_adjacent_coordinate (a b : BoardCoordinate) :
    Option CardinalDirection :=
  match a.x - b.x, a.y - b.y with
  | 0, 1 => some North
  | -1, 0 => some East
  | 0, -1 => some South
  | 1, 0 => some West
  | _, _ => none

/-- `BoardCoordinate::adjacent_in_direction` in `src/tile.rs`. -/
def BoardCoordinate.adjacent_in_direction (c : BoardCoordinate)
    (d : CardinalDirection) : BoardCoordinate :=
  match d with
  | North | NorthNorthEast | NorthNorthWest => ⟨c.x, c.y - 1⟩
  | EastNorthEast | East | EastSouthEast => ⟨c.x + 1, c.y⟩
  | SouthSouthEast | South | SouthSouthWest => ⟨c.x, c.y + 1⟩
  | WestSouthWest | West | WestNorthWest => ⟨c.x - 1, c.y⟩

/-- `BoardCoordinate::adjacent_coordinates` in `src/tile.rs`.  The Rust
returns a `BTreeMap` keyed by the primary directions; its iteration order is
the derived `Ord` order North, East, South, West, which is the list order
here. -/
def BoardCoordinate.adjacent_coordinates (c : BoardCoordinate) :
    List (CardinalDirection × BoardCoordinate) :=
  PRIMARY_CARDINAL_DIRECTIONS.map (fun d => (d, c.adjacent_in_direction d))

/-- `BoardCoordinate::surrounding_coordinates` in `src/tile.rs`: the eight
king-move neighbours, in the source's `(-1..=1) × (-1..=1)` order. -/
def BoardCoordinate.surrounding_coordinates (c : BoardCoordinate) :
    List BoardCoordinate :=
  [-1, 0, 1].flatMap (fun dx =>
    ([-1, 0, 1].filterMap (fun dy =>
      if dx = 0 ∧ dy = 0 then none
      else some ⟨c.x + dx, c.y + dy⟩)))

/-! ## Regions and the tile catalog (`src/tile.rs`) -/

/-- `RegionType` in `src/tile.rs`. -/
inductive RegionType where
  | City
  | Field
  | Cloister
  | Road
  | Water
deriving DecidableEq, Repr

/-- `Region` in `src/tile.rs`.  The render-only `meeple_coordinate` field is
omitted (it feeds the terminal renderer only). -/
inductive Region where
  | City (edges : List CardinalDirection) (pennant : Bool)
  | Field (edges : List CardinalDirection)
  | Cloister
  | Road (edges : List CardinalDirection)
  | Water (edges : List CardinalDirection)
deriving DecidableEq, Repr

/-- `Region::edges` in `src/tile.rs` (a `Cloister` has no edges). -/
def Region.edges : Region → List CardinalDirection
  | .City es _ => es
  | .Field es => es
  | .Road es => es
  | .Water es => es
  | .Cloister => []

/-- `Region::region_type` in `src/tile.rs`. -/
def Region.region_type : Region → RegionType
  | .City _ _ => .City
  | .Field _ => .Field
  | .Road _ => .Road
  | .Water _ => .Water
  | .Cloister => .Cloister

/-- `TileDefinition` in `src/tile.rs`.  The `render` field (ASCII art) is
omitted; `count` and `name` are kept because `PartialEq` on the whole struct
is used for the river-terminator identity check (the catalog in
`src/tile_definitions.rs` never populates the `expansion` field). -/
structure TileDefinition where
  count : Nat
  name : String
  regions : List Region
deriving DecidableEq, Repr

/-- Lookup in the `directed_regions` map of `TileDefinition` in
`src/tile.rs`: the map is built by inserting every region keyed by each of
its edges, later insertions overwriting earlier ones, so a direction resolves
to the last region listing it. -/
def TileDefinition.directedRegion (t : TileDefinition) (d : CardinalDirection) :
    Option Region :=
  (t.regions.filter (fun r => d ∈ r.edges)).getLast?

/-- `TileDefinition::perimeter_regions` in `src/tile.rs`: the region types
around the perimeter clockwise from NNW, skipping directions no region
lists. -/
def TileDefinition.perimeter_regions (t : TileDefinition) : List RegionType :=
  PERIMETER_REGION_DIRECTIONS.filterMap
    (fun d => (t.directedRegion d).map Region.region_type)

/-- One element of `iter().cycle().skip(s)`: index into a list cyclically.
Empty lists yield nothing, as an empty Rust `cycle` does. -/
def cycleGet (l : List RegionType) (i : Nat) : Option RegionType :=
  l.get? (i % l.length)

/-- `TileDefinition::list_oriented_region_types` in `src/tile.rs`: cycle the
perimeter sequence and skip `(4 - rotations) * 3` positions (Rust `u8`
subtraction; callers pass `rotations ∈ 0..=3`, for larger values the Rust
underflow panics while `Nat` subtraction saturates). -/
def TileDefinition.list_oriented_region_types (t : TileDefinition)
    (rotations : Nat) : List RegionType :=
  let p := t.perimeter_regions
  (List.range 12).filterMap (fun i => cycleGet p ((4 - rotations) * 3 + i))

/-! ## Players and meeple (`src/player.rs`) -/

/-- `PlayerId` (a `Uuid` in `src/player.rs`), modelled as `Nat`; the nil
uuid of `Meeple::dummy` is `0`. -/
abbrev PlayerId := Nat

/-- `Meeple` in `src/player.rs`; the render-only `color` field is omitted. -/
structure Meeple where
  player_id : PlayerId
deriving DecidableEq, Repr

/-- `Meeple::dummy` in `src/player.rs`. -/
def Meeple.dummy : Meeple := ⟨0⟩

/-! ## Placed tiles (`src/tile.rs`) -/

/-- `TilePlacement` in `src/tile.rs`. -/
structure TilePlacement where
  coordinate : BoardCoordinate
  rotations : Nat
deriving DecidableEq, Repr

/-- `PlacedTile` in `src/tile.rs`; `meeple` pairs a region index with the
meeple. -/
structure PlacedTile where
  tile : TileDefinition
  placement : TilePlacement
  meeple : Option (Nat × Meeple)
deriving DecidableEq, Repr

/-- `PlacedTile::new` in `src/tile.rs`. -/
def PlacedTile.new (t : TileDefinition) (x y : Int) (rotations : Nat) : PlacedTile :=
  ⟨t, ⟨⟨x, y⟩, rotations⟩, none⟩

/-- `PlacedTile::new_with_meeple` in `src/tile.rs`. -/
def PlacedTile.new_with_meeple (t : TileDefinition) (x y : Int) (rotations : Nat)
    (m : Nat × Meeple) : PlacedTile :=
  ⟨t, ⟨⟨x, y⟩, rotations⟩, some m⟩

/-- `PlacedTile::has_occupied_cloister` in `src/tile.rs`: the meeple sits on
the first Cloister region's index. -/
def PlacedTile.has_occupied_cloister (t : PlacedTile) : Bool :=
  match t.meeple with
  | some (mi, _) =>
    match (t.tile.regions.enum.find? (fun p => p.2.region_type = .Cloister)) with
    | some (ci, _) => ci = mi
    | none => false
  | none => false

/-- `PlacedTile::list_regions_on_edge` in `src/tile.rs`.  The Rust panics on
non-primary directions (callers pass primary ones only); the catch-all skip
of `0` mirrors the North case. -/
def PlacedTile.list_regions_on_edge (t : PlacedTile) (d : CardinalDirection) :
    List RegionType :=
  let edges := t.tile.list_oriented_region_types t.placement.rotations
  let skip : Nat :=
    match d with
    | North => 0
    | East => 3
    | South => 6
    | West => 9
    | _ => 0
  (edges.drop skip).take 3

/-! ## Tile catalog entries used by the claims (`src/tile_definitions.rs`) -/

/-- `RIVER_TERMINATOR` in `src/tile_definitions.rs`. -/
def RIVER_TERMINATOR : TileDefinition :=
  ⟨2, "River terminator",
   [Region.Field [EastSouthEast, SouthSouthEast, South, SouthSouthWest,
      WestSouthWest, West, WestNorthWest, NorthNorthWest, North,
      NorthNorthEast, EastNorthEast],
    Region.Water [East]]⟩

/-- `STRAIGHT_ROAD` in `src/tile_definitions.rs`. -/
def STRAIGHT_ROAD : TileDefinition :=
  ⟨8, "Straight road",
   [Region.Road [North, South],
    Region.Field [NorthNorthEast, EastNorthEast, East, EastSouthEast, SouthSouthEast],
    Region.Field [SouthSouthWest, WestSouthWest, West, WestNorthWest, NorthNorthWest]]⟩

/-- `CORNER_ROAD` in `src/tile_definitions.rs`. -/
def CORNER_ROAD : TileDefinition :=
  ⟨9, "Corner road",
   [Region.Field [EastSouthEast, SouthSouthEast],
    Region.Field [SouthSouthWest, WestSouthWest, West, WestNorthWest,
      NorthNorthWest, North, NorthNorthEast, EastNorthEast],
    Region.Road [East, South]]⟩

/-- `CLOISTER_IN_FIELD` in `src/tile_definitions.rs`. -/
def CLOISTER_IN_FIELD : TileDefinition :=
  ⟨4, "Cloister in field",
   [Region.Field [North, NorthNorthEast, EastNorthEast, East, EastSouthEast,
      SouthSouthEast, South, SouthSouthWest, WestSouthWest, West,
      WestNorthWest, NorthNorthWest],
    Region.Cloister]⟩

/-- `STRAIGHT_RIVER` in `src/tile_definitions.rs`. -/
def STRAIGHT_RIVER : TileDefinition :=
  ⟨2, "Straight river",
   [Region.Water [North, South],
    Region.Field [NorthNorthEast, EastNorthEast, East, EastSouthEast, SouthSouthEast],
    Region.Field [SouthSouthWest, WestSouthWest, West, WestNorthWest, NorthNorthWest]]⟩

/-- `CORNER_RIVER` in `src/tile_definitions.rs`. -/
def CORNER_RIVER : TileDefinition :=
  ⟨2, "Corner river",
   [Region.Water [North, West],
    Region.Field [NorthNorthEast, EastNorthEast, East, EastSouthEast,
      SouthSouthEast, South, SouthSouthWest, WestSouthWest],
    Region.Field [WestNorthWest, NorthNorthWest]]⟩

/-- `SIDE_CITY` in `src/tile_definitions.rs`. -/
def SIDE_CITY : TileDefinition :=
  ⟨5, "Side city",
   [Region.Field [WestSouthWest, West, WestNorthWest, NorthNorthWest, North,
      NorthNorthEast, EastNorthEast, East, EastSouthEast],
    Region.City [SouthSouthEast, South, SouthSouthWest] false]⟩

/-- `PlacedTile::get_opposite_river_end_direction` in `src/tile.rs`: the
other rotated Water edge.  `none` for the river terminator; the Rust panics
when the tile has no Water region at all (modelled `none`). -/
def PlacedTile.get_opposite_river_end_direction (t : PlacedTile)
    (d : CardinalDirection) : Option CardinalDirection :=
  if t.tile = RIVER_TERMINATOR then none
  else
    match t.tile.regions.find? (fun r => r.region_type = .Water) with
    | some r => (r.edges.map (fun e => e.rotate t.placement.rotations)).find? (fun e => e ≠ d)
    | none => none

/-! ## Association-list models of `HashMap` / `HashSet` -/

/-- `HashMap` lookup on an association list with unique keys. -/
def alistGet {α β : Type} [DecidableEq α] (l : List (α × β)) (k : α) : Option β :=
  (l.find? (fun p => p.1 = k)).map (fun p => p.2)

/-- `HashMap` insert: replace the value at an existing key in place, else
append the new binding. -/
def alistInsert {α β : Type} [DecidableEq α] (l : List (α × β)) (k : α) (v : β) :
    List (α × β) :=
  if (l.find? (fun p => p.1 = k)).isSome then
    l.map (fun p => if p.1 = k then (k, v) else p)
  else l ++ [(k, v)]

/-- `HashMap` remove. -/
def alistRemove {α β : Type} [DecidableEq α] (l : List (α × β)) (k : α) :
    List (α × β) :=
  l.filter (fun p => p.1 ≠ k)

/-- `HashSet` insert on a duplicate-free list. -/
def insertSet {α : Type} [DecidableEq α] (l : List α) (a : α) : List α :=
  if a ∈ l then l else l ++ [a]

/-! ## Connected regions (`src/connected_regions.rs`) -/

/-- `PlacedTileEdge` in `src/connected_regions.rs`. -/
structure PlacedTileEdge where
  coordinate : BoardCoordinate
  global_direction : CardinalDirection
deriving DecidableEq, Repr

/-- `PlacedTileEdge::opposing_tile_edge` in `src/connected_regions.rs`. -/
def PlacedTileEdge.opposing_tile_edge (e : PlacedTileEdge) : PlacedTileEdge :=
  ⟨e.coordinate.adjacent_in_direction e.global_direction,
   e.global_direction.tile_opposite⟩

/-- `ConnectedRegionId` (a `Uuid` in the source), modelled as the pair of
the minting tile's coordinate and the region index within that tile, which
is unique over a board lifetime. -/
abbrev ConnectedRegionId := BoardCoordinate × Nat

/-- `PlacedTileRegion` in `src/connected_regions.rs`. -/
structure PlacedTileRegion where
  tile_position : BoardCoordinate
  region_index : Nat
  region : Region
deriving DecidableEq, Repr

/-- `ConnectedRegion` in `src/connected_regions.rs` (the variant used by
`src/board.rs`): `adjacent_regions` is a `HashSet` modelled as a
duplicate-free list, `connected_edges` a `HashMap` modelled as an
association list with unique keys. -/
structure ConnectedRegion where
  id : ConnectedRegionId
  region_type : RegionType
  tile_regions : List PlacedTileRegion
  adjacent_regions : List ConnectedRegionId
  connected_edges : List (PlacedTileEdge × Option PlacedTileEdge)
deriving DecidableEq, Repr

/-- Owner (by region index) of an unrotated perimeter direction of a tile
definition: the `edge_index: HashMap<CardinalDirection, ConnectedRegionId>`
built inside `PlacedTile::own_connected_regions`, where later insertions
overwrite earlier ones. -/
def TileDefinition.unrotatedEdgeOwner (t : TileDefinition) (d : CardinalDirection) :
    Option Nat :=
  ((t.regions.enum.filter (fun p => d ∈ p.2.edges)).getLast?).map (fun p => p.1)

/-- `PlacedTile::own_connected_regions` in `src/tile.rs`: one connected
region per region of the catalog entry, with rotated edges keyed at the
tile's coordinate and unmatched (`none`), plus the intra-tile adjacency
derived from the two perimeter neighbours of every edge.  The Rust panics
when an adjacent direction is owned by no region (`expect`); modelled by
skipping it. -/
def PlacedTile.own_connected_regions (t : PlacedTile) : List ConnectedRegion :=
  t.tile.regions.enum.map (fun p =>
    { id := (t.placement.coordinate, p.1)
      region_type := p.2.region_type
      tile_regions := [⟨t.placement.coordinate, p.1, p.2⟩]
      adjacent_regions :=
        p.2.edges.foldl (fun acc e =>
          [e.adjacent.1, e.adjacent.2].foldl (fun acc2 a =>
            match t.tile.unrotatedEdgeOwner a with
            | some j => if j ≠ p.1 then insertSet acc2 (t.placement.coordinate, j) else acc2
            | none => acc2) acc) []
      connected_edges :=
        p.2.edges.map (fun e =>
          (⟨t.placement.coordinate, e.rotate t.placement.rotations⟩, none)) })

/-- `ConnectedRegion::merge_mut` in `src/connected_regions.rs`: `none` is
the `RegionTypeMismatch` failure.  For each incoming edge whose tile
opposite is already a key of the survivor, the boundary is closed by
matching that key to the incoming edge; otherwise the incoming binding is
inserted unchanged. -/
def ConnectedRegion.merge_mut (self other : ConnectedRegion) :
    Option ConnectedRegion :=
  if self.region_type ≠ other.region_type then none
  else some
    { self with
      tile_regions := self.tile_regions ++ other.tile_regions
      adjacent_regions := other.adjacent_regions.foldl insertSet self.adjacent_regions
      connected_edges := other.connected_edges.foldl (fun m e =>
        let opp := e.1.opposing_tile_edge
        if (alistGet m opp).isSome then alistInsert m opp (some e.1)
        else alistInsert m e.1 e.2) self.connected_edges }

/-- `ConnectedRegion::is_closed` in `src/connected_regions.rs`: every value
of the edge map is `Some` (vacuously true for an empty map). -/
def ConnectedRegion.is_closed (cr : ConnectedRegion) : Bool :=
  cr.connected_edges.all (fun e => e.2.isSome)

/-! ## The board (`src/board.rs`) -/

/-- `InvalidTilePlacement` in `src/board.rs`. -/
inductive InvalidTilePlacement where
  | TileAlreadyAtCoordinate
  | TileDoesNotContactPlacedTiles
  | TileEdgesDoNotMatchPlacedTiles
  | OtherMeepleAlreadyInConnectedRegion
  | RiverMustBeConnected
  | RiverMustNotImmediatelyTurnOnItself
  | InvalidMeeplePlacementIndex
  | MeepleCannotBePlacedInRiver
deriving DecidableEq, Repr

/-- `Board` in `src/board.rs`: `placed_tiles` is an `IndexMap` (insertion
order), the other two are `HashMap`s.  The unused `score_record` and
`current_score` fields are omitted (nothing reads or writes them). -/
structure Board where
  placed_tiles : List (BoardCoordinate × PlacedTile)
  connected_regions : List (ConnectedRegionId × ConnectedRegion)
  region_index : List (PlacedTileEdge × ConnectedRegionId)
deriving DecidableEq, Repr

/-- `Board::new` in `src/board.rs`. -/
def Board.new : Board := ⟨[], [], []⟩

/-- `Board::get_tile_at_coordinate` in `src/board.rs`. -/
def Board.get_tile_at_coordinate (b : Board) (c : BoardCoordinate) :
    Option PlacedTile :=
  alistGet b.placed_tiles c

/-- `Board::get_connected_region` in `src/board.rs`. -/
def Board.get_connected_region (b : Board) (id : ConnectedRegionId) :
    Option ConnectedRegion :=
  alistGet b.connected_regions id

/-- `Board::list_adjacent_tiles` in `src/board.rs` (N, E, S, W order). -/
def Board.list_adjacent_tiles (b : Board) (c : BoardCoordinate) :
    List (CardinalDirection × Option PlacedTile) :=
  c.adjacent_coordinates.map (fun p => (p.1, alistGet b.placed_tiles p.2))

/-- `Board::list_surrounding_tiles` in `src/board.rs`. -/
def Board.list_surrounding_tiles (b : Board) (c : BoardCoordinate) :
    List PlacedTile :=
  c.surrounding_coordinates.filterMap (fun sc => alistGet b.placed_tiles sc)

/-- `Board::get_surrounding_regions` in `src/board.rs`: for each primary
side, the three region types the neighbour presents on the facing side, or
three `none`s where there is no neighbour. -/
def Board.get_surrounding_regions (b : Board) (c : BoardCoordinate) :
    List (Option RegionType) :=
  (b.list_adjacent_tiles c).foldr (fun p acc =>
    (match p.2 with
     | some tl => (tl.list_regions_on_edge p.1.compass_opposite).map some
     | none => [none, none, none]) ++ acc) []

/-- `Board::get_candidate_regions_to_merge` in `src/board.rs`: the set of
pre-existing region ids hit by looking up the tile opposite of each edge in
the global edge index. -/
def Board.get_candidate_regions_to_merge (b : Board) (cr : ConnectedRegion) :
    List ConnectedRegionId :=
  cr.connected_edges.foldl (fun acc e =>
    match alistGet b.region_index e.1.opposing_tile_edge with
    | some id => insertSet acc id
    | none => acc) []

/-- Modelled from the spec: `ConnectedRegion::residents` is called from
`src/board.rs` and `src/score.rs` but its definition is absent from the
sources.  Spec §9: "the residents-of-a-region query walks member
(coord, region-index) pairs and looks up tiles by coordinate in the board's
tile table"; a resident is a meeple sitting on exactly a member's region
index. -/
def ConnectedRegion.residents (cr : ConnectedRegion) (b : Board) :
    List (PlacedTile × Nat × Meeple) :=
  cr.tile_regions.filterMap (fun tr =>
    match b.get_tile_at_coordinate tr.tile_position with
    | some t =>
      match t.meeple with
      | some (mi, m) => if mi = tr.region_index then some (t, mi, m) else none
      | none => none
    | none => none)

/-! ## Scoring (`src/score.rs`) -/

/-- `Score` in `src/score.rs`: a `HashMap<PlayerId, i32>` modelled
extensionally as a total function, absent keys reading as `0` (the map is
only ever read through `add_score` accumulation and per-player indexing). -/
structure Score where
  get : PlayerId → Int

/-- `Score::new` in `src/score.rs`. -/
def Score.new : Score := ⟨fun _ => 0⟩

/-- `Score::add_score` in `src/score.rs`: `entry(player).or_insert(0) += v`. -/
def Score.add_score (s : Score) (p : PlayerId) (v : Int) : Score :=
  ⟨fun q => if q = p then s.get q + v else s.get q⟩

/-- `ConnectedRegion::score` in `src/score.rs`.  The `unreachable!` for a
non-City member of a City region, and the `expect`s for an empty Cloister
member list, are modelled as `0` contributions. -/
def ConnectedRegion.score (cr : ConnectedRegion) (b : Board) : Nat :=
  match cr.region_type with
  | .City =>
    let base := cr.tile_regions.foldl (fun acc tr =>
      acc + match tr.region with
            | .City _ true => 2
            | .City _ false => 1
            | _ => 0) 0
    if cr.is_closed then base * 2 else base
  | .Field =>
    (cr.adjacent_regions.filter (fun id =>
      match b.get_connected_region id with
      | some r => r.region_type = .City ∧ r.is_closed
      | none => false)).length * 3
  | .Cloister =>
    match cr.tile_regions.head? with
    | some tr => (b.list_surrounding_tiles tr.tile_position).length + 1
    | none => 0
  | .Road => cr.tile_regions.length
  | .Water => 0

/-- `ConnectedRegion::majority_meeple_player_ids` in `src/score.rs`: count
resident meeples per owner (`HashMap` counting, modelled as one entry per
distinct owner with its multiplicity) and keep every owner whose count
equals the maximum. -/
def ConnectedRegion.majority_meeple_player_ids (cr : ConnectedRegion)
    (b : Board) : List PlayerId :=
  let ids := (cr.residents b).map (fun r => r.2.2.player_id)
  let counts := ids.dedup.map (fun p => (p, ids.count p))
  match (counts.map (fun pc => pc.2)).max? with
  | some mx => (counts.filter (fun pc => pc.2 = mx)).map (fun pc => pc.1)
  | none => []

/-- Loop body of `Board::calculate_board_score` in `src/score.rs`: each
majority owner of the region is credited the full region score. -/
def Board.creditRegion (b : Board) (acc : Score) (cr : ConnectedRegion) : Score :=
  (cr.majority_meeple_player_ids b).foldl
    (fun a p => a.add_score p (cr.score b : Int)) acc

/-- `Board::calculate_board_score` in `src/score.rs`. -/
def Board.calculate_board_score (b : Board) : Score :=
  b.connected_regions.foldl (fun acc pr => b.creditRegion acc pr.2) Score.new

/-! ## The validator (`src/board.rs`) -/

/-- River block of `Board::validate_tile_placement` in `src/board.rs`
(lines 318-342): requires at least one Water-to-Water pairing, and for a
non-terminator tile forbids the new tile's other river end from equalling
the previous tile's other river end.  The Rust panics when the most
recently placed tile is not 4-adjacent to the new coordinate
(`direction_to_adjacent_coordinate`) and when the board has no last tile
(unreachable here); both are modelled as no error. -/
def Board.riverError (b : Board) (t : PlacedTile) (own : List RegionType)
    (pairings : List (RegionType × Option RegionType)) :
    Option InvalidTilePlacement :=
  if own.any (fun r => r = .Water) then
    if pairings.countP (fun pr => pr.1 = .Water ∧ pr.2 = some .Water) < 1 then
      some .RiverMustBeConnected
    else if t.tile ≠ RIVER_TERMINATOR then
      match b.placed_tiles.getLast? with
      | some last =>
        match t.placement.coordinate.direction_to_adjacent_coordinate
            last.2.placement.coordinate with
        | some d =>
          if last.2.get_opposite_river_end_direction d.compass_opposite
             = t.get_opposite_river_end_direction d then
            some .RiverMustNotImmediatelyTurnOnItself
          else none
        | none => none
      | none => none
    else none
  else none

/-- Final block of `Board::validate_tile_placement` in `src/board.rs`
(lines 344-365): when a meeple is requested, reject if any pre-existing
region that would merge into a region containing the meeple's index already
has a resident.  The Rust `expect` on a missing region id is modelled as
skipping the id. -/
def Board.meepleOccupancyError (b : Board) (t : PlacedTile) :
    Option InvalidTilePlacement :=
  match t.meeple with
  | some (ri, _) =>
    let mcrs := t.own_connected_regions.filter (fun cr =>
      cr.tile_regions.any (fun tr => tr.region_index = ri))
    if mcrs.any (fun cr =>
        (b.get_candidate_regions_to_merge cr).any (fun id =>
          match b.get_connected_region id with
          | some jr => !(jr.residents b).isEmpty
          | none => false)) then
      some .OtherMeepleAlreadyInConnectedRegion
    else none
  | none => none

/-- Opening block of `Board::validate_tile_placement` in `src/board.rs`
(lines 281-288): an out-of-range meeple region index or a meeple on a Water
region is rejected before anything else. -/
def meeplePreliminaryError (t : PlacedTile) : Option InvalidTilePlacement :=
  match t.meeple with
  | some (ri, _) =>
    match t.tile.regions.get? ri with
    | none => some InvalidTilePlacement.InvalidMeeplePlacementIndex
    | some (.Water _) => some InvalidTilePlacement.MeepleCannotBePlacedInRiver
    | some _ => none
  | none => none

/-- `Board::validate_tile_placement` in `src/board.rs` (`none` = `Ok(())`).
The Rust takes an optional pre-computed `tile_connected_regions` purely as
a caching argument whose value always equals
`tile.own_connected_regions()`; the model recomputes it. -/
def Board.validate_tile_placement (b : Board) (t : PlacedTile) :
    Option InvalidTilePlacement :=
  match meeplePreliminaryError t with
  | some e => some e
  | none =>
    if b.placed_tiles.isEmpty then none
    else if (alistGet b.placed_tiles t.placement.coordinate).isSome then
      some .TileAlreadyAtCoordinate
    else
      let surrounding := b.get_surrounding_regions t.placement.coordinate
      if surrounding.all (fun r => r.isNone) then
        some .TileDoesNotContactPlacedTiles
      else
        let own := t.tile.list_oriented_region_types t.placement.rotations
        let pairings := own.zip surrounding
        if pairings.any (fun pr =>
            match pr.2 with
            | some r => decide (r ≠ pr.1)
            | none => false) then
          some .TileEdgesDoNotMatchPlacedTiles
        else
          match b.riverError t own pairings with
          | some e => some e
          | none => b.meepleOccupancyError t

/-! ## Placement commit (`src/board.rs`) -/

/-- `TilePlacementSuccess` in `src/board.rs`. -/
structure TilePlacementSuccess where
  score_delta : Score
  liberated_meeple : List Meeple

/-- One iteration of the per-region commit loop of `Board::place_tile` in
`src/board.rs` (lines 161-202): gather and apply merges, rewrite the edge
index, on closure score the region and liberate its resident meeples, then
insert the surviving region.  Rust `expect`s (missing region id, kind
mismatch on merge) are modelled as skips.  The closure-scoring step calls
`majority_meeple_player_id`, which is absent from the sources; it is
modelled from the spec (§4.6 attribution: each owner tied at the maximum
meeple count receives the full region score, computed at closure time
before the meeples are returned) via `majority_meeple_player_ids` from
`src/score.rs`. -/
def Board.commitRegion (st : Board × List Meeple × Score) (cr0 : ConnectedRegion) :
    Board × List Meeple × Score :=
  let b := st.1
  let merged := (b.get_candidate_regions_to_merge cr0).foldl
    (fun (p : Board × ConnectedRegion) id =>
      match alistGet p.1.connected_regions id with
      | some other =>
        let b2 : Board :=
          { p.1 with connected_regions := alistRemove p.1.connected_regions id }
        match p.2.merge_mut other with
        | some m => (b2, m)
        | none => (b2, p.2)
      | none => p)
    (b, cr0)
  let cr := merged.2
  let b1 : Board :=
    { merged.1 with
      region_index := cr.connected_edges.foldl
        (fun ri e => alistInsert ri e.1 cr.id) merged.1.region_index }
  let next :=
    if cr.is_closed then
      let sd := (cr.majority_meeple_player_ids b1).foldl
        (fun a p => a.add_score p (cr.score b1 : Int)) st.2.2
      let res := ((cr.residents b1).map (fun r => r.1.placement.coordinate)).foldl
        (fun (q : Board × List Meeple) c =>
          match alistGet q.1.placed_tiles c with
          | some tl =>
            match tl.meeple with
            | some (ri, m) =>
              if cr.tile_regions.any (fun tr =>
                  tr.tile_position = tl.placement.coordinate ∧ tr.region_index = ri) then
                ({ q.1 with
                   placed_tiles := alistInsert q.1.placed_tiles c { tl with meeple := none } },
                 q.2 ++ [m])
              else q
            | none => q
          | none => q)
        (b1, ([] : List Meeple))
      (res.1, st.2.1 ++ res.2, sd)
    else (b1, st.2.1, st.2.2)
  ({ next.1 with
     connected_regions := alistInsert next.1.connected_regions cr.id cr },
   next.2.1, next.2.2)

/-- `Board::place_tile` in `src/board.rs`: validate (short-circuiting on
error without touching the board), commit every own region, then
post-process cloister completion — every surrounding tile hosting an
occupied cloister whose surrounding count (before inserting the new tile)
is 7 has its meeple taken, its owner credited 8 points.  Returns the board
resulting from the call (`&mut self` in Rust) together with the result. -/
def Board.place_tile (b : Board) (t : PlacedTile) :
    Board × Except InvalidTilePlacement TilePlacementSuccess :=
  match b.validate_tile_placement t with
  | some err => (b, .error err)
  | none =>
    let st := t.own_connected_regions.foldl Board.commitRegion
      (b, ([] : List Meeple), Score.new)
    let b2 := st.1
    let cloisterCoords := (b2.list_surrounding_tiles t.placement.coordinate).filterMap
      (fun tl =>
        if tl.has_occupied_cloister
           ∧ (b2.list_surrounding_tiles tl.placement.coordinate).length = 7 then
          some tl.placement.coordinate
        else none)
    let b3 : Board :=
      { b2 with placed_tiles := alistInsert b2.placed_tiles t.placement.coordinate t }
    let fin := cloisterCoords.foldl
      (fun (q : Board × List Meeple × Score) c =>
        match alistGet q.1.placed_tiles c with
        | some tl =>
          match tl.meeple with
          | some (_, m) =>
            ({ q.1 with
               placed_tiles := alistInsert q.1.placed_tiles c { tl with meeple := none } },
             q.2.1 ++ [m], q.2.2.add_score m.player_id 8)
          | none => q
        | none => q)
      (b3, st.2.1, st.2.2)
    (fin.1, .ok ⟨fin.2.2, fin.2.1⟩)

/-- `Board::new_with_tiles` in `src/board.rs`. -/
def Board.new_with_tiles (tiles : List PlacedTile) :
    Except InvalidTilePlacement Board :=
  tiles.foldlM (fun b t =>
    let r := b.place_tile t
    match r.2 with
    | .ok _ => .ok r.1
    | .error e => .error e) Board.new

/-! ## Move enumeration (`src/board.rs`, `src/move_hints.rs`) -/

/-- `Board::possible_next_tile_coordinates` in `src/board.rs`: the origin
for an empty board, else every unoccupied 4-neighbour of a placed tile
(each emitted once, in first-visit order). -/
def Board.possible_next_tile_coordinates (b : Board) : List BoardCoordinate :=
  if b.placed_tiles.isEmpty then [⟨0, 0⟩]
  else
    let keys := b.placed_tiles.map (fun p => p.1)
    (keys.foldl (fun (st : List BoardCoordinate × List BoardCoordinate) c =>
      c.adjacent_coordinates.foldl (fun st2 dc =>
        if dc.2 ∈ st2.2 then st2 else (st2.1 ++ [dc.2], st2.2 ++ [dc.2])) st)
      ([], keys)).1

/-- The rotation filter of `Board::get_move_hints`: keep a rotation only
when its oriented perimeter sequence was not already emitted (the
`region_sequences: HashSet` insert). -/
def dedupRotationsGo (t : TileDefinition) :
    List Nat → List (List RegionType) → List Nat
  | [], _ => []
  | r :: rs, seen =>
    let s := t.list_oriented_region_types r
    if s ∈ seen then dedupRotationsGo t rs seen
    else r :: dedupRotationsGo t rs (s :: seen)

/-- `MoveHint` in `src/board.rs`. -/
structure MoveHint where
  tile_placement : TilePlacement
  meeple_placement : Option Nat
deriving DecidableEq, Repr

/-- `Board::get_move_hints` in `src/board.rs`: for every candidate
coordinate, the rotations surviving the symmetry dedup; for each, a
meeple-free candidate (plus one per region index when meeple hints are
requested, listed first as the Rust `chain` does); keep those passing
validation with a dummy meeple. -/
def Board.get_move_hints (b : Board) (t : TileDefinition)
    (includeMeeple : Bool) : List MoveHint :=
  let placements := b.possible_next_tile_coordinates.foldr (fun c acc =>
    ((dedupRotationsGo t [0, 1, 2, 3] []).map (fun r => TilePlacement.mk c r)) ++ acc) []
  let candidates := placements.foldr (fun p acc =>
    (if includeMeeple then
      (List.range t.regions.length).map (fun i => (p, some i)) ++ [(p, (none : Option Nat))]
     else [(p, (none : Option Nat))]) ++ acc) []
  (candidates.filter (fun pm =>
    (b.validate_tile_placement ⟨t, pm.1, pm.2.map (fun i => (i, Meeple.dummy))⟩).isNone)).map
    (fun pm => ⟨pm.1, pm.2⟩)

/-! ## Concrete boards used as test vectors -/

/-- Fallback region for partial lookups on concrete boards (never actually
selected in the developments below). -/
def noRegion : ConnectedRegion := ⟨(⟨0, 0⟩, 0), .Water, [], [], []⟩

/-- A board holding a single straight-road tile at the origin. -/
def oneTileBoard : Board :=
  (Board.new_with_tiles [PlacedTile.new STRAIGHT_ROAD 0 0 0]).toOption.getD Board.new

/-- The Cloister connected region minted for a cloister tile (region
index 1 of `CLOISTER_IN_FIELD`): it has no perimeter edges. -/
def cloisterTileCloisterRegion : ConnectedRegion :=
  ((PlacedTile.new CLOISTER_IN_FIELD 0 0 0).own_connected_regions.get? 1).getD noRegion

/-- Four corner-road tiles forming a closed road loop. -/
def roadLoopTiles : List PlacedTile :=
  [PlacedTile.new CORNER_ROAD 0 0 0, PlacedTile.new CORNER_ROAD 1 0 1,
   PlacedTile.new CORNER_ROAD 1 1 2, PlacedTile.new CORNER_ROAD 0 1 3]

/-- The board the road loop produces. -/
def roadLoopBoard : Board :=
  (Board.new_with_tiles roadLoopTiles).toOption.getD Board.new

/-- The merged (closed, 4-member) Road connected region of the loop; its
surviving id was minted by the last tile placed at (0, 1), region index 2. -/
def roadLoopRoadRegion : ConnectedRegion :=
  (roadLoopBoard.get_connected_region (⟨0, 1⟩, 2)).getD noRegion

/-- Two side-city tiles whose city edges face each other: a closed
two-member city. -/
def sideCityTiles : List PlacedTile :=
  [PlacedTile.new SIDE_CITY 0 0 0, PlacedTile.new SIDE_CITY 0 1 2]

/-- The board the two side-city tiles produce. -/
def sideCityBoard : Board :=
  (Board.new_with_tiles sideCityTiles).toOption.getD Board.new

/-- The Field connected region of the second side-city tile; it is adjacent
to the closed two-member city. -/
def sideCityFieldRegion : ConnectedRegion :=
  (sideCityBoard.get_connected_region (⟨0, 1⟩, 0)).getD noRegion

/-- A board holding a single side-city tile with a meeple of player 1 on
its City region (index 1). -/
def singleCityMeepleBoard : Board :=
  (Board.new_with_tiles
    [PlacedTile.new_with_meeple SIDE_CITY 0 0 0 (1, ⟨1⟩)]).toOption.getD Board.new

/-- The City connected region of that single tile. -/
def singleCityMeepleRegion : ConnectedRegion :=
  (singleCityMeepleBoard.get_connected_region (⟨0, 0⟩, 1)).getD noRegion

/-! ## Claim C1 -/

/-- Claim C1: for every board state and tile instance, if
`validate_tile_placement` rejects the instance with an error then
`place_tile` returns that same error and leaves the board completely
unchanged — same placed tiles, same connected regions, same edge index. -/
theorem c1_validation_error_short_circuits_place (b : Board) (t : PlacedTile)
    (err : InvalidTilePlacement) (h : b.validate_tile_placement t = some err) :
    (b.place_tile t).2 = Except.error err
    ∧ (b.place_tile t).1.placed_tiles = b.placed_tiles
    ∧ (b.place_tile t).1.connected_regions = b.connected_regions
    ∧ (b.place_tile t).1.region_index = b.region_index := by
  simp [Board.place_tile, h]

/-- Witness for C1: placing a straight road on an occupied origin is
rejected with `TileAlreadyAtCoordinate` and `place_tile` surfaces exactly
that error. -/
theorem c1_witness :
    oneTileBoard.validate_tile_placement (PlacedTile.new STRAIGHT_ROAD 0 0 0)
      = some InvalidTilePlacement.TileAlreadyAtCoordinate
    ∧ (oneTileBoard.place_tile (PlacedTile.new STRAIGHT_ROAD 0 0 0)).2
      = Except.error InvalidTilePlacement.TileAlreadyAtCoordinate :=
  ⟨by decide,
   (c1_validation_error_short_circuits_place oneTileBoard
     (PlacedTile.new STRAIGHT_ROAD 0 0 0)
     InvalidTilePlacement.TileAlreadyAtCoordinate (by decide)).1⟩

/-! ## Claim C2 -/

/-- Counterexample to C2 as stated: the Cloister connected region of a
cloister tile has an empty edge map, yet `is_closed` returns `true`
(an empty `all` is vacuously true), contradicting the claim's requirement
that a closed region have at least one edge. -/
theorem c2_counterexample :
    ¬ (cloisterTileCloisterRegion.is_closed = true ↔
        (cloisterTileCloisterRegion.connected_edges ≠ []
         ∧ ∀ e ∈ cloisterTileCloisterRegion.connected_edges, e.2.isSome = true)) := by
  decide

/-- Claim C2 (amended): `is_closed` returns true iff every edge in the
region's edge map is matched; a region with an empty edge map counts as
closed (the non-emptiness requirement of the claim does not hold on the
code). -/
theorem c2_is_closed_iff_all_edges_matched (cr : ConnectedRegion) :
    cr.is_closed = true ↔ ∀ e ∈ cr.connected_edges, e.2.isSome = true := by
  simp [ConnectedRegion.is_closed, List.all_eq_true]

/-! ## Claim C4 -/

/-- Counterexample to C4 as stated: the four-tile road loop is a closed
Road region with 4 tile members, yet its score is 4, not 8 — the code
never doubles road scores on closure. -/
theorem c4_counterexample :
    (Board.new_with_tiles roadLoopTiles).isOk = true
    ∧ roadLoopRoadRegion.region_type = RegionType.Road
    ∧ roadLoopRoadRegion.is_closed = true
    ∧ roadLoopRoadRegion.tile_regions.length = 4
    ∧ ¬ (roadLoopRoadRegion.score roadLoopBoard
          = 2 * roadLoopRoadRegion.tile_regions.length) := by
  decide

/-- Claim C4 (amended): a Road connected region's score equals the count of
its tile members whether the region is open or closed. -/
theorem c4_road_score_is_member_count (b : Board) (cr : ConnectedRegion)
    (h : cr.region_type = RegionType.Road) :
    cr.score b = cr.tile_regions.length := by
  simp [ConnectedRegion.score, h]

/-- Witness for C4: the amended rule evaluated on the closed road loop. -/
theorem c4_witness :
    roadLoopRoadRegion.region_type = RegionType.Road
    ∧ roadLoopRoadRegion.score roadLoopBoard = roadLoopRoadRegion.tile_regions.length :=
  ⟨by decide,
   c4_road_score_is_member_count roadLoopBoard roadLoopRoadRegion (by decide)⟩

/-! ## Claim C6 -/

/-- Claim C6: a Field connected region's score is 3 times the number of
distinct tracked-adjacent connected regions that are closed Cities on the
board. -/
theorem c6_field_score_three_per_closed_city (b : Board) (cr : ConnectedRegion)
    (h : cr.region_type = RegionType.Field) :
    cr.score b = 3 * (cr.adjacent_regions.countP (fun id =>
      (b.get_connected_region id).any
        (fun r => decide (r.region_type = RegionType.City ∧ r.is_closed = true)))) := by
  simp only [ConnectedRegion.score, h]
  rw [Nat.mul_comm]
  congr 1
  rw [← List.countP_eq_length_filter]
  apply List.countP_congr
  intro id _
  cases hret : b.get_connected_region id <;> simp [hret, Option.any]

/-- Witness for C6: on the two-tile side-city board the second tile's field
is adjacent to one closed city and scores 3. -/
theorem c6_witness :
    sideCityFieldRegion.region_type = RegionType.Field
    ∧ (sideCityFieldRegion.adjacent_regions.countP (fun id =>
        (sideCityBoard.get_connected_region id).any
          (fun r => decide (r.region_type = RegionType.City ∧ r.is_closed = true)))) = 1
    ∧ sideCityFieldRegion.score sideCityBoard = 3 * 1 := by
  refine ⟨by decide, by decide, ?_⟩
  have h := c6_field_score_three_per_closed_city sideCityBoard sideCityFieldRegion (by decide)
  rw [h]
  decide

/-! ## Claim C7 -/

/-- Counterexample to C7 as stated: on an empty board a river terminator
with an out-of-range meeple region index is rejected
(`InvalidMeeplePlacementIndex`) — the meeple checks run before the
empty-board early return, so validation is not unconditionally `Ok`. -/
theorem c7_counterexample :
    ¬ (Board.new.validate_tile_placement
        ⟨RIVER_TERMINATOR, ⟨⟨0, 0⟩, 0⟩, some (2, Meeple.dummy)⟩ = none) := by
  decide

/-- Claim C7 (amended): on an empty board, validation returns `Ok` for
every tile instance whose meeple placement (if any) names an in-range
region index that is not a Water region; all remaining checks are
skipped. -/
theorem c7_empty_board_validation_ok (t : PlacedTile)
    (h : ∀ pm, t.meeple = some pm →
      ∃ r, t.tile.regions.get? pm.1 = some r ∧ r.region_type ≠ RegionType.Water) :
    Board.new.validate_tile_placement t = none := by
  have hpre : meeplePreliminaryError t = none := by
    unfold meeplePreliminaryError
    cases hm : t.meeple with
    | none => rfl
    | some pm =>
      obtain ⟨ri, m⟩ := pm
      obtain ⟨r, hr, hw⟩ := h _ hm
      have hr2 : t.tile.regions.get? ri = some r := hr
      simp only [List.get?_eq_getElem?] at hr2
      cases r with
      | Water es => exact absurd rfl hw
      | City es pn => simp [hr2]
      | Field es => simp [hr2]
      | Cloister => simp [hr2]
      | Road es => simp [hr2]
  simp [Board.validate_tile_placement, hpre, Board.new]

/-- Witness for C7: a straight road at an arbitrary coordinate and rotation
with a meeple on its road region validates on the empty board. -/
theorem c7_witness :
    Board.new.validate_tile_placement
      (PlacedTile.new_with_meeple STRAIGHT_ROAD 5 7 3 (0, ⟨2⟩)) = none :=
  c7_empty_board_validation_ok _ (fun pm hpm => by
    rw [show pm = (0, (⟨2⟩ : Meeple)) from (Option.some.inj hpm).symm]
    exact ⟨Region.Road [North, South], by decide, by decide⟩)

/-! ## Claim C3 -/

/-- Eight tiles: a ring of roads around the origin, the eighth being a
cloister tile at the origin with a meeple (player 1) on its Cloister
region (index 1). -/
def c3BaseTiles : List PlacedTile :=
  [PlacedTile.new CORNER_ROAD (-1) (-1) 0,
   PlacedTile.new STRAIGHT_ROAD (-1) 0 0,
   PlacedTile.new CORNER_ROAD (-1) 1 3,
   PlacedTile.new STRAIGHT_ROAD 0 (-1) 1,
   PlacedTile.new CORNER_ROAD 1 (-1) 1,
   PlacedTile.new STRAIGHT_ROAD 1 0 0,
   PlacedTile.new CORNER_ROAD 1 1 2,
   PlacedTile.new_with_meeple CLOISTER_IN_FIELD 0 0 0 (1, ⟨1⟩)]

/-- The board after the eight base tiles: the occupied cloister at the
origin has 7 of its 8 surrounding coordinates filled. -/
def c3Board : Board :=
  (Board.new_with_tiles c3BaseTiles).toOption.getD Board.new

/-- The ninth tile, filling the last surrounding coordinate of the
cloister. -/
def c3NinthTile : PlacedTile := PlacedTile.new STRAIGHT_ROAD 0 1 1

/-- Outcome summary of placing the ninth tile: the cloister tile's
surrounding-tile count afterwards, the returned meeples, and the score
delta credited to player 1 (the cloister meeple's owner). -/
def c3Summary : Option (Nat × List Meeple × Int) :=
  let r := c3Board.place_tile c3NinthTile
  match r.2 with
  | .ok s =>
    some (((r.1.list_surrounding_tiles ⟨0, 0⟩).length), s.liberated_meeple,
      s.score_delta.get 1)
  | .error _ => none

/-- Claim C3, evaluated at the failing input: when the eighth surrounding
tile of the occupied cloister is placed, the outcome does return the
cloister meeple, but the score delta credits its owner with 8 points — the
hard-coded `add_score(meeple.player_id, 8)` in `Board::place_tile` — not
the 9 points the claim (and the code's own
`ConnectedRegion::score`, which yields `8 + 1` for a surrounded cloister)
requires. -/
theorem c3_cloister_completion_pays_eight_not_nine :
    (Board.new_with_tiles c3BaseTiles).isOk = true
    ∧ c3Summary = some (8, [⟨1⟩], 8) := by
  constructor
  · decide
  · decide

/-! ## Claim C5 -/

/-- Folding `add_score` over a list of owners never touches a player not in
the list. -/
theorem foldl_add_score_get_of_not_mem (l : List PlayerId) (s : Score) (v : Int)
    (p : PlayerId) (h : p ∉ l) :
    (l.foldl (fun a q => a.add_score q v) s).get p = s.get p := by
  induction l generalizing s with
  | nil => rfl
  | cons q rest ih =>
    simp only [List.foldl_cons]
    rw [ih _ (fun hm => h (List.mem_cons_of_mem _ hm))]
    have hpq : p ≠ q := fun hh => h (hh ▸ List.mem_cons_self q rest)
    simp [Score.add_score, hpq]

/-- Folding `add_score` over a duplicate-free list of owners credits a
member exactly once. -/
theorem foldl_add_score_get_of_nodup_mem (l : List PlayerId) (s : Score) (v : Int)
    (p : PlayerId) (hn : l.Nodup) (h : p ∈ l) :
    (l.foldl (fun a q => a.add_score q v) s).get p = s.get p + v := by
  induction l generalizing s with
  | nil => cases h
  | cons q rest ih =>
    simp only [List.foldl_cons]
    rcases List.mem_cons.mp h with rfl | hmem
    · rw [foldl_add_score_get_of_not_mem rest _ v p (List.nodup_cons.mp hn).1]
      simp [Score.add_score]
    · rw [ih _ (List.nodup_cons.mp hn).2 hmem]
      have hpq : p ≠ q := by
        rintro rfl
        exact (List.nodup_cons.mp hn).1 hmem
      simp [Score.add_score, hpq]

/-- Claim C5: when a connected region is scored, every owner whose resident
meeple count equals the maximum over all owners is credited the full region
score (not a share of it), and a region without resident meeples credits
nobody. -/
theorem c5_majority_owners_get_full_score (b : Board) (cr : ConnectedRegion)
    (acc : Score) (p : PlayerId) :
    (cr.residents b = [] →
      cr.majority_meeple_player_ids b = []
      ∧ (b.creditRegion acc cr).get p = acc.get p)
    ∧ (p ∈ (cr.residents b).map (fun r => r.2.2.player_id) →
      (∀ q ∈ (cr.residents b).map (fun r => r.2.2.player_id),
        ((cr.residents b).map (fun r => r.2.2.player_id)).count q
          ≤ ((cr.residents b).map (fun r => r.2.2.player_id)).count p) →
      (b.creditRegion acc cr).get p = acc.get p + (cr.score b : Int)) := by
  constructor
  · intro h
    constructor
    · simp [ConnectedRegion.majority_meeple_player_ids, h]
    · simp [Board.creditRegion, ConnectedRegion.majority_meeple_player_ids, h]
  · intro hp hmax
    have hmx : ((((cr.residents b).map (fun r => r.2.2.player_id)).dedup.map
        (fun q => (q, ((cr.residents b).map (fun r => r.2.2.player_id)).count q))).map
          (fun pc => pc.2)).max?
        = some (((cr.residents b).map (fun r => r.2.2.player_id)).count p) := by
      rw [List.map_map, List.max?_eq_some_iff']
      constructor
      · exact List.mem_map.mpr ⟨p, List.mem_dedup.mpr hp, rfl⟩
      · intro v hv
        obtain ⟨q, hq, rfl⟩ := List.mem_map.mp hv
        exact hmax q (List.mem_dedup.mp hq)
    simp only [Board.creditRegion, ConnectedRegion.majority_meeple_player_ids, hmx]
    refine foldl_add_score_get_of_nodup_mem _ acc _ p ?_ ?_
    · refine List.Nodup.sublist (List.Sublist.map _ (List.filter_sublist _)) ?_
      have hkeys : ((((cr.residents b).map (fun r => r.2.2.player_id)).dedup.map
          (fun q => (q, ((cr.residents b).map (fun r => r.2.2.player_id)).count q))).map
            (fun pc => pc.1))
          = ((cr.residents b).map (fun r => r.2.2.player_id)).dedup := by
        rw [List.map_map]
        exact List.map_id _
      rw [hkeys]
      exact List.nodup_dedup _
    · refine List.mem_map.mpr
        ⟨(p, ((cr.residents b).map (fun r => r.2.2.player_id)).count p), ?_, rfl⟩
      refine List.mem_filter.mpr ⟨?_, by simp⟩
      exact List.mem_map.mpr ⟨p, List.mem_dedup.mpr hp, rfl⟩

/-- Witness for C5: one side-city tile with a meeple of player 1 on its
city; player 1 is the (sole) majority owner and is credited the full open
city score of 1. -/
theorem c5_witness :
    (1 : PlayerId) ∈ ((singleCityMeepleRegion.residents singleCityMeepleBoard).map
      (fun r => r.2.2.player_id))
    ∧ (singleCityMeepleBoard.creditRegion Score.new singleCityMeepleRegion).get 1
      = Score.new.get 1 + (singleCityMeepleRegion.score singleCityMeepleBoard : Int) := by
  refine ⟨by decide, ?_⟩
  exact (c5_majority_owners_get_full_score singleCityMeepleBoard
    singleCityMeepleRegion Score.new 1).2 (by decide) (by decide)

/-! ## Claim C9 -/

/-- The oriented perimeter sequences of the rotations the symmetry dedup
keeps are pairwise distinct and avoid the already-seen set. -/
theorem dedupRotationsGo_types_nodup (t : TileDefinition) :
    ∀ (rs : List Nat) (seen : List (List RegionType)),
      ((dedupRotationsGo t rs seen).map (fun r => t.list_oriented_region_types r)).Nodup
      ∧ ∀ s ∈ (dedupRotationsGo t rs seen).map (fun r => t.list_oriented_region_types r),
          s ∉ seen := by
  intro rs
  induction rs with
  | nil =>
    intro seen
    simp [dedupRotationsGo]
  | cons r0 rest ih =>
    intro seen
    by_cases hs : t.list_oriented_region_types r0 ∈ seen
    · simpa [dedupRotationsGo, hs] using ih seen
    · have h2 := ih (t.list_oriented_region_types r0 :: seen)
      constructor
      · simp only [dedupRotationsGo, if_neg hs, List.map_cons, List.nodup_cons]
        exact ⟨fun hmem => (h2.2 _ hmem) (List.mem_cons_self _ _), h2.1⟩
      · intro s hs2
        simp only [dedupRotationsGo, if_neg hs, List.map_cons, List.mem_cons] at hs2
        rcases hs2 with rfl | hmem
        · exact hs
        · exact fun hseen => (h2.2 s hmem) (List.mem_cons_of_mem _ hseen)

/-- Every offered rotation's oriented perimeter sequence is either already
seen or represented by some kept rotation. -/
theorem dedupRotationsGo_covers (t : TileDefinition) :
    ∀ (rs : List Nat) (seen : List (List RegionType)) (r : Nat), r ∈ rs →
      t.list_oriented_region_types r ∈ seen
      ∨ ∃ q ∈ dedupRotationsGo t rs seen,
          t.list_oriented_region_types q = t.list_oriented_region_types r := by
  intro rs
  induction rs with
  | nil =>
    intro seen r hr
    cases hr
  | cons r0 rest ih =>
    intro seen r hr
    by_cases hs : t.list_oriented_region_types r0 ∈ seen
    · rcases List.mem_cons.mp hr with rfl | hmem
      · exact Or.inl hs
      · rcases ih seen r hmem with h | ⟨q, hq, he⟩
        · exact Or.inl h
        · refine Or.inr ⟨q, ?_, he⟩
          simpa [dedupRotationsGo, hs] using hq
    · rcases List.mem_cons.mp hr with rfl | hmem
      · refine Or.inr ⟨r, ?_, rfl⟩
        simp [dedupRotationsGo, hs]
      · rcases ih (t.list_oriented_region_types r0 :: seen) r hmem with h | ⟨q, hq, he⟩
        · rcases List.mem_cons.mp h with he0 | hseen
          · refine Or.inr ⟨r0, ?_, he0.symm⟩
            simp [dedupRotationsGo, hs]
          · exact Or.inl hseen
        · refine Or.inr ⟨q, ?_, he⟩
          simp only [dedupRotationsGo, if_neg hs]
          exact List.mem_cons_of_mem _ hq

/-- Folding singleton-append is `map`. -/
theorem foldr_singleton_append_eq_map {α β : Type} (f : α → β) (l : List α) :
    l.foldr (fun a acc => [f a] ++ acc) [] = l.map f := by
  induction l with
  | nil => rfl
  | cons a rest ih =>
    rw [List.foldr_cons, ih]
    rfl

/-- On the empty board the move enumerator reduces to the dedup-filtered
rotations anchored at the origin with no meeple. -/
theorem get_move_hints_empty_board (t : TileDefinition) :
    Board.new.get_move_hints t false
      = (dedupRotationsGo t [0, 1, 2, 3] []).map
          (fun r => ⟨⟨⟨0, 0⟩, r⟩, none⟩) := by
  unfold Board.get_move_hints
  have hposs : Board.new.possible_next_tile_coordinates = [⟨0, 0⟩] := rfl
  rw [hposs]
  simp only [List.foldr_cons, List.foldr_nil, List.append_nil, Bool.false_eq_true,
    if_false]
  rw [foldr_singleton_append_eq_map]
  have hval : ∀ pm ∈ ((dedupRotationsGo t [0, 1, 2, 3] []).map
      (fun r => TilePlacement.mk ⟨0, 0⟩ r)).map (fun p => (p, (none : Option Nat))),
      (Board.new.validate_tile_placement
        ⟨t, pm.1, pm.2.map (fun i => (i, Meeple.dummy))⟩).isNone = true := by
    intro pm hpm
    obtain ⟨p, _, rfl⟩ := List.mem_map.mp hpm
    rfl
  rw [List.filter_eq_self.mpr hval]
  rw [List.map_map, List.map_map]
  rfl

/-- Claim C9: on an empty board (meeple hints disabled) every emitted
placement is anchored at the origin with no meeple, the oriented perimeter
tuples of the emitted rotations are pairwise distinct, and every rotation's
oriented tuple is represented — i.e. exactly one placement per distinct
oriented 12-tuple of perimeter region kinds. -/
theorem c9_empty_board_one_hint_per_shape (t : TileDefinition) :
    (∀ h ∈ Board.new.get_move_hints t false,
      h.tile_placement.coordinate = ⟨0, 0⟩ ∧ h.meeple_placement = none)
    ∧ ((Board.new.get_move_hints t false).map
        (fun h => t.list_oriented_region_types h.tile_placement.rotations)).Nodup
    ∧ (∀ r, r < 4 →
      ∃ h ∈ Board.new.get_move_hints t false,
        t.list_oriented_region_types h.tile_placement.rotations
          = t.list_oriented_region_types r) := by
  refine ⟨?_, ?_, ?_⟩
  · intro h hh
    rw [get_move_hints_empty_board] at hh
    obtain ⟨r, _, rfl⟩ := List.mem_map.mp hh
    exact ⟨rfl, rfl⟩
  · rw [get_move_hints_empty_board, List.map_map]
    exact (dedupRotationsGo_types_nodup t [0, 1, 2, 3] []).1
  · intro r hr
    have hrmem : r ∈ [0, 1, 2, 3] := by
      simp only [List.mem_cons, List.not_mem_nil, or_false]
      omega
    rcases dedupRotationsGo_covers t [0, 1, 2, 3] [] r hrmem with h | ⟨q, hq, he⟩
    · exact absurd h (List.not_mem_nil _)
    · refine ⟨⟨⟨⟨0, 0⟩, q⟩, none⟩, ?_, he⟩
      rw [get_move_hints_empty_board]
      exact List.mem_map.mpr ⟨q, hq, rfl⟩

/-- Witness for C9: the straight road on the empty board — some emitted
hint carries rotation 0's oriented tuple. -/
theorem c9_witness :
    (0 : Nat) < 4
    ∧ ∃ h ∈ Board.new.get_move_hints STRAIGHT_ROAD false,
        STRAIGHT_ROAD.list_oriented_region_types h.tile_placement.rotations
          = STRAIGHT_ROAD.list_oriented_region_types 0 :=
  ⟨by decide, (c9_empty_board_one_hint_per_shape STRAIGHT_ROAD).2.2 0 (by decide)⟩

/-! ## Claim C8 -/

/-- The final (meeple occupancy) validation block never produces the
river-doubles-back error. -/
theorem meepleOccupancyError_ne_river (b : Board) (t : PlacedTile) :
    b.meepleOccupancyError t
      ≠ some InvalidTilePlacement.RiverMustNotImmediatelyTurnOnItself := by
  unfold Board.meepleOccupancyError
  cases t.meeple with
  | none => simp
  | some pm =>
    obtain ⟨ri, m⟩ := pm
    split <;> simp

/-- A board holding a single corner-river tile at the origin. -/
def c8Board : Board :=
  (Board.new_with_tiles [PlacedTile.new CORNER_RIVER 0 0 0]).toOption.getD Board.new

/-- Claim C8: for a non-empty board and a non-terminator river tile passing
the earlier checks (meeple preliminaries clean, coordinate free, contact,
edge kinds match, at least one Water-to-Water pairing), with `prev` the most
recently placed tile, `d` the direction from the new coordinate to `prev`'s
coordinate, and `e1` the new tile's other river end, validation fails with
`RiverMustNotImmediatelyTurnOnItself` exactly when `prev`'s other river end
points in the same primary direction as `e1` (river ends are primary
directions, hypotheses `hp1`/`hp2`, so the code's equality test coincides
with primary-direction equality). -/
theorem c8_river_doubles_back_iff (b : Board) (t : PlacedTile)
    (lastEntry : BoardCoordinate × PlacedTile) (d e1 : CardinalDirection)
    (hmeeple : meeplePreliminaryError t = none)
    (hne : b.placed_tiles.isEmpty = false)
    (hocc : alistGet b.placed_tiles t.placement.coordinate = none)
    (hcontact : ((b.get_surrounding_regions t.placement.coordinate).all
      (fun r => r.isNone)) = false)
    (hmatch : (((t.tile.list_oriented_region_types t.placement.rotations).zip
      (b.get_surrounding_regions t.placement.coordinate)).any (fun pr =>
        match pr.2 with
        | some r => decide (r ≠ pr.1)
        | none => false)) = false)
    (hwater : ((t.tile.list_oriented_region_types t.placement.rotations).any
      (fun r => r = RegionType.Water)) = true)
    (hpaired : ¬ (((t.tile.list_oriented_region_types t.placement.rotations).zip
      (b.get_surrounding_regions t.placement.coordinate)).countP (fun pr =>
        pr.1 = RegionType.Water ∧ pr.2 = some RegionType.Water) < 1))
    (hterm : t.tile ≠ RIVER_TERMINATOR)
    (hlast : b.placed_tiles.getLast? = some lastEntry)
    (hd : t.placement.coordinate.direction_to_adjacent_coordinate
      lastEntry.2.placement.coordinate = some d)
    (he1 : t.get_opposite_river_end_direction d = some e1)
    (hp1 : e1.primary_direction = e1)
    (hp2 : ∀ e2, lastEntry.2.get_opposite_river_end_direction d.compass_opposite
      = some e2 → e2.primary_direction = e2) :
    b.validate_tile_placement t
      = some InvalidTilePlacement.RiverMustNotImmediatelyTurnOnItself
    ↔ ∃ e2, lastEntry.2.get_opposite_river_end_direction d.compass_opposite
        = some e2 ∧ e2.primary_direction = e1.primary_direction := by
  simp only [Board.validate_tile_placement, hmeeple]
  simp only [hne, hocc, hcontact, hmatch, Option.isSome_none, Bool.false_eq_true,
    if_false]
  unfold Board.riverError
  rw [if_pos hwater, if_neg hpaired, if_pos hterm]
  simp only [hlast, hd]
  by_cases hc : lastEntry.2.get_opposite_river_end_direction d.compass_opposite
      = t.get_opposite_river_end_direction d
  · rw [if_pos hc]
    constructor
    · intro _
      exact ⟨e1, by rw [hc, he1], rfl⟩
    · intro _
      rfl
  · rw [if_neg hc]
    constructor
    · intro hcontra
      exact absurd hcontra (meepleOccupancyError_ne_river b t)
    · rintro ⟨e2, he2, hpe⟩
      exfalso
      apply hc
      have he2e1 : e2 = e1 := by
        rw [← hp2 e2 he2, hpe, hp1]
      rw [he2, he1, he2e1]

/-- Witness for C8: the corner-river scenario of the repository's own test —
`CORNER_RIVER` at the origin, then `CORNER_RIVER` at (0,-1) rotated 3: both
other river ends point West, so validation fails with
`RiverMustNotImmediatelyTurnOnItself`. -/
theorem c8_witness :
    c8Board.validate_tile_placement (PlacedTile.new CORNER_RIVER 0 (-1) 3)
      = some InvalidTilePlacement.RiverMustNotImmediatelyTurnOnItself :=
  (c8_river_doubles_back_iff c8Board (PlacedTile.new CORNER_RIVER 0 (-1) 3)
    (⟨0, 0⟩, PlacedTile.new CORNER_RIVER 0 0 0) South West
    (by rfl) (by decide) (by decide) (by decide) (by decide) (by decide)
    (by decide) (by decide) (by decide) (by decide) (by decide) (by decide)
    (by decide)).mpr ⟨West, by decide, by decide⟩

/-! ## Claim C10 -/

/-- Claim C10: `opposing_tile_edge` is an involution on placed-tile edges —
stepping to the neighbouring coordinate and taking the tile opposite twice
returns the original edge — and `tile_opposite` is self-inverse on the
12 directions. -/
theorem c10_opposing_tile_edge_involution :
    (∀ e : PlacedTileEdge, e.opposing_tile_edge.opposing_tile_edge = e)
    ∧ (∀ d : CardinalDirection, d.tile_opposite.tile_opposite = d) := by
  constructor
  · intro e
    obtain ⟨⟨x, y⟩, d⟩ := e
    cases d <;>
      simp [PlacedTileEdge.opposing_tile_edge, BoardCoordinate.adjacent_in_direction,
        CardinalDirection.tile_opposite]
  · intro d
    cases d <;> rfl

end Carcassonne
